import Mathlib

/-!
Verification of the Landlord Command Centre compliance core (timeline engine
and reminder scheduler) against its natural-language specification.

This file is a shallow embedding of the relevant Python source:

* `models.py` — the entity dataclasses and enums;
* `database.py` — the record-store CRUD operations the engine uses
  (`list_properties`, `get_latest_certificate`, `list_events`,
  `create_event`, `update_event_status`, `delete_events_for_tenancy`);
* `services/timeline.py` — the rule catalog, due-date functions,
  `generate_for_tenancy`, `get_upcoming_events`, `get_overdue_events`;
* `services/notifications.py` — `REMINDER_SCHEDULE`, `get_expiring_items`
  and its two scanners, the sent-reminder ledger and `send_reminders`.

Modelling conventions:

* Dates are integer day numbers (`Day := Int`); Python `date + timedelta(days=n)`
  becomes `d + n` and `(d2 - d1).days` becomes `d2 - d1`.
* The SQL store is a record of lists of rows.  SQL `ORDER BY` clauses that
  only permute query results (`ORDER BY address`, `ORDER BY due_date` on the
  snapshot feeding a later in-memory sort) are modelled as store order: no
  claim below depends on those orders, while the in-memory Python sort of
  `get_upcoming_events` (the one a claim is about) is modelled exactly with a
  stable merge sort.
* `ORDER BY issue_date DESC LIMIT 1` is modelled by a fold that keeps the
  first row of maximal issue date (SQL leaves the tie order unspecified).
* Money (`deposit_amount`) is an integer amount; only its comparison with 0
  is ever used by the code under verification.
* The external mail transport (`_send_email`, an HTTPS call) is out of scope
  per the spec and is modelled by its boolean outcome: `true` = the call
  returned 2xx, `false` = it raised.
* Python truthiness is translated literally: `not tenancy.id` is true both
  for `None` and for the integer `0`.
-/

namespace LCC

/-- Dates as day numbers: `date` in Python, with day-granularity arithmetic. -/
abbrev Day := Int

/-- `models.CertificateType`. -/
inductive CertificateType where
  | gas_safety
  | eicr
  | epc
  | fire_safety
deriving DecidableEq, Repr

/-- Iteration order of `for cert_type in CertificateType` (declaration order). -/
def CertificateType.all : List CertificateType :=
  [.gas_safety, .eicr, .epc, .fire_safety]

/-- `models.EventStatus`. -/
inductive EventStatus where
  | pending
  | completed
  | overdue
deriving DecidableEq, Repr

/-- `models.EventPriority`. -/
inductive EventPriority where
  | critical
  | high
  | medium
  | low
deriving DecidableEq, Repr

/-- `models.Property` (the fields the compliance core reads), together with the
`user_id` column of its stored row. -/
structure Property where
  id : Nat
  user_id : Nat
  address : String
  postcode : String
deriving DecidableEq, Repr

/-- `models.Certificate` (the fields the compliance core reads), together with
the `user_id` column of its stored row. -/
structure Certificate where
  id : Nat
  user_id : Nat
  property_id : Nat
  certificate_type : CertificateType
  issue_date : Option Day
  expiry_date : Option Day
deriving DecidableEq, Repr

/-- `models.Tenancy` (the fields the compliance core reads). -/
structure Tenancy where
  id : Option Nat
  property_id : Nat
  tenancy_start_date : Option Day
  deposit_amount : Int
deriving DecidableEq, Repr

/-- `models.ComplianceEvent` as stored (row id and `user_id` column included). -/
structure ComplianceEvent where
  id : Nat
  user_id : Nat
  property_id : Nat
  tenancy_id : Option Nat
  event_type : String
  event_name : String
  due_date : Option Day
  completed_date : Option Day
  status : EventStatus
  priority : EventPriority
  notes : String
deriving DecidableEq, Repr

/-- A row of the `sent_reminders` table (the ReminderSentMarker ledger);
`sent_date` is never read back by the code under verification. -/
structure SentReminder where
  user_id : Nat
  item_type : String
  item_id : Nat
  reminder_days : Int
deriving DecidableEq, Repr

/-- The record store: the tables the compliance core touches, plus the
auto-increment counter for compliance event ids. -/
structure DB where
  properties : List Property
  certificates : List Certificate
  events : List ComplianceEvent
  sent_reminders : List SentReminder
  next_event_id : Nat
deriving DecidableEq, Repr

/-- `database.Database.list_properties`: the user's property rows
(`ORDER BY address` only permutes the result; store order is kept). -/
def DB.list_properties (db : DB) (user_id : Nat) : List Property :=
  db.properties.filter (fun p => p.user_id == user_id)

/-- The row, among `certs`, that `ORDER BY issue_date DESC LIMIT 1` returns:
first row of maximal issue date (SQL `NULL` sorts below every date). -/
def latestByIssue (certs : List Certificate) : Option Certificate :=
  certs.foldl
    (fun best c =>
      match best with
      | none => some c
      | some b =>
        match c.issue_date, b.issue_date with
        | some x, some y => if y < x then some c else some b
        | some _, none => some c
        | _, _ => some b)
    none

/-- `database.Database.get_latest_certificate`: most recent certificate of a
type for a property, scoped to the user. -/
def DB.get_latest_certificate (db : DB) (property_id : Nat)
    (cert_type : CertificateType) (user_id : Nat) : Option Certificate :=
  latestByIssue (db.certificates.filter
    (fun c => c.property_id == property_id && c.certificate_type == cert_type
      && c.user_id == user_id))

/-- `notifications.NotificationService._get_latest_certificate_any_user`:
the same query without the user scope. -/
def DB.get_latest_certificate_any_user (db : DB) (property_id : Nat)
    (cert_type : CertificateType) : Option Certificate :=
  latestByIssue (db.certificates.filter
    (fun c => c.property_id == property_id && c.certificate_type == cert_type))

/-- `database.Database.list_events`: the user's compliance event rows with the
optional property/tenancy/status filters (`ORDER BY due_date ASC` only
permutes the result; store order is kept). -/
def DB.list_events (db : DB) (user_id : Nat) (property_id : Option Nat)
    (tenancy_id : Option Nat) (status : Option EventStatus) :
    List ComplianceEvent :=
  db.events.filter (fun e =>
    e.user_id == user_id
    && (match property_id with
        | none => true
        | some p => e.property_id == p)
    && (match tenancy_id with
        | none => true
        | some t => e.tenancy_id == some t)
    && (match status with
        | none => true
        | some s => e.status == s))

/-- `notifications.NotificationService._list_events_any_user`: all events of a
property regardless of user. -/
def DB.list_events_any_user (db : DB) (property_id : Nat) :
    List ComplianceEvent :=
  db.events.filter (fun e => e.property_id == property_id)

/-- `database.Database.create_event`: insert a row with a fresh id, returning
the store and the new id (`lastrowid`). -/
def DB.create_event (db : DB) (e : ComplianceEvent) (user_id : Nat) :
    DB × Nat :=
  let eid := db.next_event_id
  ({ db with
      events := db.events ++ [{ e with id := eid, user_id := user_id }],
      next_event_id := eid + 1 },
    eid)

/-- `database.Database.update_event_status`: set status and completed date on
the rows matching the event id, scoped to the user. -/
def DB.update_event_status (db : DB) (event_id : Nat) (user_id : Nat)
    (status : EventStatus) (completed_date : Option Day := none) : DB :=
  { db with
    events := db.events.map (fun e =>
      if e.id == event_id && e.user_id == user_id then
        { e with status := status, completed_date := completed_date }
      else e) }

/-- `database.Database.delete_events_for_tenancy`: remove the tenancy's event
rows, scoped to the user. -/
def DB.delete_events_for_tenancy (db : DB) (tenancy_id : Nat) (user_id : Nat) :
    DB :=
  { db with
    events := db.events.filter (fun e =>
      !(e.tenancy_id == some tenancy_id && e.user_id == user_id)) }

/-- `timeline.ComplianceRule`.  The Python due-date closures capture
`self.db`/`self.user_id`; here the function takes them explicitly. -/
structure ComplianceRule where
  event_type : String
  event_name : String
  calculate_due_date : DB → Nat → Tenancy → Option Day → Option Day
  priority : EventPriority
  description : String
  recurring_days : Option Int := none

/-- `timeline.TimelineGenerator._gas_safety_due_date`. -/
def gas_safety_due_date (db : DB) (user_id : Nat) (t : Tenancy)
    (_last : Option Day) : Option Day :=
  match db.get_latest_certificate t.property_id .gas_safety user_id with
  | some cert =>
    match cert.expiry_date with
    | some d => some d
    | none =>
      match t.tenancy_start_date with
      | some s => some (s + 365)
      | none => none
  | none =>
    match t.tenancy_start_date with
    | some s => some (s + 365)
    | none => none

/-- `timeline.TimelineGenerator._eicr_due_date`. -/
def eicr_due_date (db : DB) (user_id : Nat) (t : Tenancy)
    (_last : Option Day) : Option Day :=
  match db.get_latest_certificate t.property_id .eicr user_id with
  | some cert =>
    match cert.expiry_date with
    | some d => some d
    | none =>
      match t.tenancy_start_date with
      | some s => some (s + 365 * 5)
      | none => none
  | none =>
    match t.tenancy_start_date with
    | some s => some (s + 365 * 5)
    | none => none

/-- `timeline.TimelineGenerator._epc_due_date`.  Note the fallback: with no
EPC certificate the code returns the tenancy start date itself
("If no certificate, assume needed now"), not start + 10 years. -/
def epc_due_date (db : DB) (user_id : Nat) (t : Tenancy)
    (_last : Option Day) : Option Day :=
  match db.get_latest_certificate t.property_id .epc user_id with
  | some cert =>
    match cert.expiry_date with
    | some d => some d
    | none => t.tenancy_start_date
  | none => t.tenancy_start_date

/-- `timeline.TimelineGenerator._create_rules`: the fixed rule catalog, in
source order. -/
def create_rules : List ComplianceRule :=
  [ { event_type := "deposit_protection"
      event_name := "Protect deposit in government scheme"
      calculate_due_date := fun _ _ t _ =>
        match t.tenancy_start_date with
        | some s => if t.deposit_amount > 0 then some (s + 30) else none
        | none => none
      priority := .critical
      description := "Deposit must be protected within 30 days of receipt. Failure can result in 1-3x deposit penalty." },
    { event_type := "prescribed_info"
      event_name := "Serve prescribed information to tenant"
      calculate_due_date := fun _ _ t _ =>
        match t.tenancy_start_date with
        | some s => if t.deposit_amount > 0 then some (s + 30) else none
        | none => none
      priority := .critical
      description := "Prescribed information about deposit protection must be given within 30 days." },
    { event_type := "gas_safety_serve"
      event_name := "Give Gas Safety Certificate to tenant"
      calculate_due_date := fun _ _ t _ => t.tenancy_start_date
      priority := .critical
      description := "Gas Safety Certificate must be given to tenant before they move in." },
    { event_type := "eicr_serve"
      event_name := "Give EICR to tenant"
      calculate_due_date := fun _ _ t _ =>
        match t.tenancy_start_date with
        | some s => some (s + 28)
        | none => none
      priority := .high
      description := "EICR must be given to tenant within 28 days of tenancy start." },
    { event_type := "epc_serve"
      event_name := "Give EPC to tenant"
      calculate_due_date := fun _ _ t _ => t.tenancy_start_date
      priority := .high
      description := "EPC must be available to prospective tenants and given at tenancy start." },
    { event_type := "how_to_rent"
      event_name := "Serve \x27How to Rent\x27 guide"
      calculate_due_date := fun _ _ t _ => t.tenancy_start_date
      priority := .high
      description := "How to Rent guide must be given to tenant at start of tenancy." },
    { event_type := "smoke_co_alarms"
      event_name := "Test smoke and CO alarms"
      calculate_due_date := fun _ _ t _ => t.tenancy_start_date
      priority := .high
      description := "Smoke alarms on every floor and CO alarms in rooms with fixed combustion appliances. Must be tested at start of tenancy." },
    { event_type := "gas_safety_renewal"
      event_name := "Renew Gas Safety Certificate"
      calculate_due_date := gas_safety_due_date
      priority := .critical
      description := "Gas Safety Certificate expires annually. Must be renewed before expiry."
      recurring_days := some 365 },
    { event_type := "eicr_renewal"
      event_name := "Renew EICR (Electrical Safety)"
      calculate_due_date := eicr_due_date
      priority := .high
      description := "EICR expires every 5 years (or as specified on certificate). Must be renewed before expiry."
      recurring_days := some (365 * 5) },
    { event_type := "epc_renewal"
      event_name := "Renew EPC"
      calculate_due_date := epc_due_date
      priority := .medium
      description := "EPC expires every 10 years. Property must have valid EPC rated E or above."
      recurring_days := some (365 * 10) },
    { event_type := "rent_increase_earliest"
      event_name := "Earliest rent increase date"
      calculate_due_date := fun _ _ t _ =>
        match t.tenancy_start_date with
        | some s => some (s + 365)
        | none => none
      priority := .medium
      description := "Under Renters\x27 Rights Act 2025, rent can only be increased once per year, minimum 12 months after tenancy start." },
    { event_type := "right_to_rent"
      event_name := "Verify Right to Rent"
      calculate_due_date := fun _ _ t _ => t.tenancy_start_date
      priority := .medium
      description := "Landlord must check tenant has right to rent in England before tenancy starts." },
    { event_type := "legionella_assessment"
      event_name := "Legionella risk assessment"
      calculate_due_date := fun _ _ t _ => t.tenancy_start_date
      priority := .low
      description := "Landlords should assess risk of Legionella exposure. Not legally required but recommended." } ]

/-- One step of the `for rule in self.rules` loop body of
`generate_for_tenancy`: evaluate the rule, skip a null due date, otherwise
create the event (overdue when already past due) and append it. -/
def generate_step (user_id : Nat) (t : Tenancy) (today : Day) (tid : Nat)
    (acc : DB × List ComplianceEvent) (rule : ComplianceRule) :
    DB × List ComplianceEvent :=
  match rule.calculate_due_date acc.1 user_id t none with
  | none => acc
  | some due =>
    let status : EventStatus := if due < today then .overdue else .pending
    let ev : ComplianceEvent :=
      { id := 0
        user_id := user_id
        property_id := t.property_id
        tenancy_id := some tid
        event_type := rule.event_type
        event_name := rule.event_name
        due_date := some due
        completed_date := none
        status := status
        priority := rule.priority
        notes := rule.description }
    let created := acc.1.create_event ev user_id
    (created.1, acc.2 ++ [{ ev with id := created.2 }])

/-- `timeline.TimelineGenerator.generate_for_tenancy`: guard (`not tenancy.id`
is true for both `None` and `0`), full delete of the tenancy's events, then
one event per rule with a non-null due date.  Returns the updated store and
the created events. -/
def generate_for_tenancy (db : DB) (user_id : Nat) (t : Tenancy)
    (today : Day) : DB × List ComplianceEvent :=
  match t.id with
  | none => (db, [])
  | some tid =>
    if tid = 0 then (db, [])
    else
      create_rules.foldl (generate_step user_id t today tid)
        (db.delete_events_for_tenancy tid user_id, [])

/-- A store holding only a certificate table: the due-date functions read
nothing else, which lets `generate_for_tenancy` be characterised as a pure
function of the certificate table. -/
def certsOnly (certs : List Certificate) : DB := ⟨[], certs, [], [], 0⟩

/-- A rule whose due-date function reads the store only through its
certificate table (true of every rule in the catalog). -/
def CertOnly (r : ComplianceRule) : Prop :=
  ∀ (db : DB) (u : Nat) (t : Tenancy) (l : Option Day),
    r.calculate_due_date db u t l
      = r.calculate_due_date (certsOnly db.certificates) u t l

/-- The events `generate_for_tenancy` plans for a rule list — one per rule
with a non-null due date, before row ids are assigned (id 0 placeholder) —
as a pure function of the certificate table. -/
def planned_events (certs : List Certificate) (u : Nat) (t : Tenancy)
    (today : Day) (tid : Nat) (rules : List ComplianceRule) :
    List ComplianceEvent :=
  rules.filterMap (fun rule =>
    (rule.calculate_due_date (certsOnly certs) u t none).map (fun due =>
      { id := 0
        user_id := u
        property_id := t.property_id
        tenancy_id := some tid
        event_type := rule.event_type
        event_name := rule.event_name
        due_date := some due
        completed_date := none
        status := if due < today then EventStatus.overdue else EventStatus.pending
        priority := rule.priority
        notes := rule.description }))

/-- Assign consecutive row ids starting at `n` (what the sequence of
`create_event` inserts does). -/
def assignIds (n : Nat) : List ComplianceEvent → List ComplianceEvent
  | [] => []
  | e :: rest => { e with id := n } :: assignIds (n + 1) rest

/-- The `priority_order` dict of `get_upcoming_events`. -/
def priority_order : EventPriority → Nat
  | .critical => 0
  | .high => 1
  | .medium => 2
  | .low => 3

/-- The Python sort key comparison of `get_upcoming_events`:
`(e.due_date or date.max, priority_order[e.priority])`, compared
lexicographically, a null due date sorting last. -/
def eventLe (a b : ComplianceEvent) : Bool :=
  match a.due_date, b.due_date with
  | some x, some y =>
    decide (x < y) || (x == y && priority_order a.priority ≤ priority_order b.priority)
  | some _, none => true
  | none, some _ => false
  | none, none => priority_order a.priority ≤ priority_order b.priority

/-- One step of the event loop of `get_upcoming_events`: skip completed
events, keep those with a due date inside the window, lazily persisting the
overdue transition. -/
def upcoming_step (user_id : Nat) (today : Day) (cutoff : Day)
    (acc : DB × List ComplianceEvent) (e : ComplianceEvent) :
    DB × List ComplianceEvent :=
  if e.status = .completed then acc
  else
    match e.due_date with
    | some d =>
      if d ≤ cutoff then
        if d < today ∧ e.status ≠ .overdue then
          (acc.1.update_event_status e.id user_id .overdue,
            acc.2 ++ [{ e with status := .overdue }])
        else (acc.1, acc.2 ++ [e])
      else acc
    | none => acc

/-- `timeline.TimelineGenerator.get_upcoming_events`: filter to the window,
persist lazy overdue transitions, and stable-sort by (due date, priority
rank).  Returns the updated store and the sorted list. -/
def get_upcoming_events (db : DB) (user_id : Nat) (days : Int) (today : Day)
    (property_id : Option Nat := none) (tenancy_id : Option Nat := none) :
    DB × List ComplianceEvent :=
  let all_events := db.list_events user_id property_id tenancy_id none
  let cutoff := today + days
  let folded := all_events.foldl (upcoming_step user_id today cutoff) (db, [])
  (folded.1, folded.2.mergeSort eventLe)

/-- One step of the event loop of `get_overdue_events`. -/
def overdue_step (user_id : Nat) (today : Day)
    (acc : DB × List ComplianceEvent) (e : ComplianceEvent) :
    DB × List ComplianceEvent :=
  if e.status = .completed then acc
  else
    match e.due_date with
    | some d =>
      if d < today then
        if e.status ≠ .overdue then
          (acc.1.update_event_status e.id user_id .overdue,
            acc.2 ++ [{ e with status := .overdue }])
        else (acc.1, acc.2 ++ [e])
      else acc
    | none => acc

/-- `timeline.TimelineGenerator.get_overdue_events`: all non-completed events
past due, with the same lazy overdue persistence, in query order. -/
def get_overdue_events (db : DB) (user_id : Nat) (today : Day)
    (property_id : Option Nat := none) (tenancy_id : Option Nat := none) :
    DB × List ComplianceEvent :=
  let all_events := db.list_events user_id property_id tenancy_id none
  all_events.foldl (overdue_step user_id today) (db, [])

/-- The pure selection predicate of `get_upcoming_events`: non-completed and
due within the window. -/
def in_window (cutoff : Day) (e : ComplianceEvent) : Bool :=
  !(e.status == EventStatus.completed)
    && (match e.due_date with
        | some d => decide (d ≤ cutoff)
        | none => false)

/-- The in-memory effect of the lazy overdue transition on a returned event:
past-due non-overdue events come back with status overdue. -/
def lazy_flip (today : Day) (e : ComplianceEvent) : ComplianceEvent :=
  match e.due_date with
  | some d =>
    if d < today ∧ e.status ≠ EventStatus.overdue then
      { e with status := EventStatus.overdue }
    else e
  | none => e

/-- How a stored event row can change across one read call: unchanged, or
(for a non-completed row) flipped to overdue by the lazy transition. -/
def Evolves (s0 s : ComplianceEvent) : Prop :=
  s = s0
    ∨ (s0.status ≠ EventStatus.completed
      ∧ s = { s0 with status := EventStatus.overdue, completed_date := none })

/-- What a read path guarantees about its returned events `out` and the
store `db2` it leaves behind: no completed event is returned, and every
returned event past due carries status overdue, with that status persisted
on its row. -/
def ReadResultOk (u : Nat) (today : Day) (db2 : DB)
    (out : List ComplianceEvent) : Prop :=
  ∀ x ∈ out, x.status ≠ EventStatus.completed
    ∧ ∀ d, x.due_date = some d → d < today →
        x.status = EventStatus.overdue
        ∧ ∀ s ∈ db2.events, s.id = x.id → s.user_id = u →
            s.status = EventStatus.overdue

/-- The common shape of the loop bodies of `get_upcoming_events` and
`get_overdue_events`: each step skips the event, appends it unchanged (only
when it is non-completed, and already overdue whenever past due), or appends
it flipped to overdue while persisting the flip. -/
def LazyStep (u : Nat) (today : Day)
    (step : DB × List ComplianceEvent → ComplianceEvent →
      DB × List ComplianceEvent) : Prop :=
  ∀ acc e,
    step acc e = acc
    ∨ (e.status ≠ EventStatus.completed
        ∧ (∀ d, e.due_date = some d → d < today →
            e.status = EventStatus.overdue)
        ∧ step acc e = (acc.1, acc.2 ++ [e]))
    ∨ (e.status ≠ EventStatus.completed
        ∧ (∃ d, e.due_date = some d ∧ d < today)
        ∧ step acc e = (acc.1.update_event_status e.id u EventStatus.overdue
            none,
          acc.2 ++ [{ e with status := EventStatus.overdue }]))

/-- `notifications.REMINDER_SCHEDULE`: (label, days before expiry), checked in
this order. -/
def REMINDER_SCHEDULE : List (String × Int) :=
  [("3 months", 90), ("2 months", 60), ("4 weeks", 28), ("3 weeks", 21),
    ("2 weeks", 14), ("1 week", 7)]

/-- `notifications.ExpiryItem`. -/
structure ExpiryItem where
  item_type : String
  item_id : Nat
  name : String
  property_address : String
  expiry_date : Day
  days_until_expiry : Int
  reminder_label : String
deriving DecidableEq, Repr

/-- The `cert_names` dict of `_get_expiring_certificates`. -/
def cert_name : CertificateType → String
  | .gas_safety => "Gas Safety Certificate"
  | .eicr => "EICR (Electrical)"
  | .epc => "EPC"
  | .fire_safety => "Fire Safety Certificate"

/-- `notifications.NotificationService._reminder_already_sent`: is there a
ledger row for (user, item type, item id, threshold days)? -/
def reminder_already_sent (db : DB) (item_type : String) (item_id : Nat)
    (reminder_days : Int) (user_id : Nat) : Bool :=
  db.sent_reminders.any (fun r =>
    r.user_id == user_id && r.item_type == item_type
      && r.item_id == item_id && r.reminder_days == reminder_days)

/-- `notifications.NotificationService._mark_reminder_sent`:
`INSERT OR IGNORE` on the unique key — a duplicate insert is a no-op. -/
def mark_reminder_sent (db : DB) (item_type : String) (item_id : Nat)
    (reminder_days : Int) (user_id : Nat) : DB :=
  if reminder_already_sent db item_type item_id reminder_days user_id then db
  else
    { db with
      sent_reminders :=
        db.sent_reminders ++ [⟨user_id, item_type, item_id, reminder_days⟩] }

/-- The property list both scanners iterate: the user's properties when a
user id is given, `_list_all_properties` otherwise. -/
def props_for (db : DB) (user_id : Option Nat) : List Property :=
  match user_id with
  | some u => db.list_properties u
  | none => db.properties

/-- The latest-certificate lookup of `_get_expiring_certificates`: scoped
when a user id is given, `_get_latest_certificate_any_user` otherwise. -/
def latest_cert_for (db : DB) (user_id : Option Nat) (property_id : Nat)
    (cert_type : CertificateType) : Option Certificate :=
  match user_id with
  | some u => db.get_latest_certificate property_id cert_type u
  | none => db.get_latest_certificate_any_user property_id cert_type

/-- The event list of `_get_expiring_events`: scoped when a user id is
given, `_list_events_any_user` otherwise. -/
def events_for (db : DB) (user_id : Option Nat) (property_id : Nat) :
    List ComplianceEvent :=
  match user_id with
  | some u => db.list_events u (some property_id) none none
  | none => db.list_events_any_user property_id

/-- The threshold an item is attributed to: the first schedule entry, in the
fixed order 90, 60, 28, 21, 14, 7, with `days_until <= days and
days_until > 0`. -/
def matched_threshold (days_until : Int) : Option (String × Int) :=
  REMINDER_SCHEDULE.find? (fun ld => days_until ≤ ld.2 && 0 < days_until)

/-- The shared threshold loop body of both scanners:
`for label, days in REMINDER_SCHEDULE: if days_until <= days and
days_until > 0: <append if user_id is not None and not already sent>; break`.
Returns the appended items (`[]` or a singleton). -/
def threshold_emission (db : DB) (user_id : Option Nat) (item_type : String)
    (item_id : Nat) (name : String) (addr : String) (expiry : Day)
    (today : Day) : List ExpiryItem :=
  let days_until := expiry - today
  match matched_threshold days_until with
  | some ld =>
    match user_id with
    | some u =>
      if reminder_already_sent db item_type item_id ld.2 u then []
      else [⟨item_type, item_id, name, addr, expiry, days_until, ld.1⟩]
    | none => []
  | none => []

/-- `notifications.NotificationService._get_expiring_certificates`: for each
property, the latest certificate of the type, emitted through the threshold
loop when it has an expiry date. -/
def get_expiring_certificates (db : DB) (cert_type : CertificateType)
    (today : Day) (user_id : Option Nat) : List ExpiryItem :=
  (props_for db user_id).flatMap (fun p =>
    match latest_cert_for db user_id p.id cert_type with
    | some cert =>
      match cert.expiry_date with
      | some exp =>
        threshold_emission db user_id "certificate" cert.id
          (cert_name cert_type) (p.address ++ ", " ++ p.postcode) exp today
      | none => []
    | none => [])

/-- `notifications.NotificationService._get_expiring_events`: every pending
event with a due date, emitted through the threshold loop. -/
def get_expiring_events (db : DB) (today : Day) (user_id : Option Nat) :
    List ExpiryItem :=
  (props_for db user_id).flatMap (fun p =>
    (events_for db user_id p.id).flatMap (fun e =>
      match e.due_date with
      | some d =>
        if e.status = .pending then
          threshold_emission db user_id "event" e.id e.event_name
            (p.address ++ ", " ++ p.postcode) d today
        else []
      | none => []))

/-- `notifications.NotificationService.get_expiring_items`: certificates of
every type, then events. -/
def get_expiring_items (db : DB) (today : Day) (user_id : Option Nat) :
    List ExpiryItem :=
  CertificateType.all.flatMap
      (fun ct => get_expiring_certificates db ct today user_id)
    ++ get_expiring_events db today user_id

/-- The summary dict `send_reminders` returns (the keys every branch sets). -/
structure SendResult where
  status : String
  sent : Nat
deriving DecidableEq, Repr

/-- The marking loop of `send_reminders`: for each item, look its label up in
the schedule and record the marker at that threshold. -/
def mark_items_sent (db : DB) (user_id : Nat) (items : List ExpiryItem) : DB :=
  items.foldl
    (fun d item =>
      match REMINDER_SCHEDULE.find? (fun ld => ld.1 == item.reminder_label) with
      | some ld => mark_reminder_sent d item.item_type item.item_id ld.2 user_id
      | none => d)
    db

/-- `notifications.NotificationService.send_reminders`.  The external mail
transport is modelled by `transport_ok`: `true` when `_send_email` returns,
`false` when it raises (non-2xx or network failure), in which case the
`except` branch returns the error result and nothing is marked. -/
def send_reminders (db : DB) (user_id : Nat) (today : Day)
    (transport_ok : Bool) : DB × SendResult :=
  let items := get_expiring_items db today (some user_id)
  if items.isEmpty then (db, ⟨"ok", 0⟩)
  else if transport_ok then
    (mark_items_sent db user_id items, ⟨"ok", items.length⟩)
  else (db, ⟨"error", 0⟩)

/-! ### Concrete stores used by counterexamples and witnesses -/

/-- An empty store. -/
def emptyDB : DB := ⟨[], [], [], [], 0⟩

/-- A tenancy starting on day 0 with no deposit, id 1. -/
def epcT : Tenancy := ⟨some 1, 1, some 0, 0⟩

/-- A store holding one EPC certificate for property 1 expiring on day 200. -/
def epcDB : DB := ⟨[], [⟨1, 1, 1, .epc, some 0, some 200⟩], [], [], 0⟩

/-- A store holding one gas safety certificate for property 1 expiring on
day 110, the property owned by user 1. -/
def gasDB : DB :=
  ⟨[⟨1, 1, "1 High St", "AB1 2CD"⟩], [⟨1, 1, 1, .gas_safety, some 0, some 110⟩],
    [], [], 1⟩

/-- A store with a single past-due pending event belonging to user 1. -/
def pastDueDB : DB :=
  ⟨[], [], [⟨1, 1, 1, some 1, "gas_safety_serve", "Give Gas Safety Certificate to tenant",
      some 5, none, .pending, .critical, ""⟩], [], 2⟩

/-- A stale stored event attached to tenancy id 0. -/
def staleEv : ComplianceEvent :=
  ⟨1, 1, 1, some 0, "x", "x", some 5, none, .pending, .medium, ""⟩

/-- A store holding only `staleEv`. -/
def staleDB : DB := ⟨[], [], [staleEv], [], 2⟩

/-- A tenancy whose id is the (non-null) integer 0. -/
def zeroIdT : Tenancy := ⟨some 0, 1, some 0, 0⟩

/-! ### Supporting lemmas -/

lemma latestByIssue_aux {c : Certificate} :
    ∀ (l : List Certificate) (acc : Option Certificate),
      l.foldl
          (fun best x =>
            match best with
            | none => some x
            | some b =>
              match x.issue_date, b.issue_date with
              | some v, some w => if w < v then some x else some b
              | some _, none => some x
              | _, _ => some b)
          acc = some c →
      acc = some c ∨ c ∈ l := by
  intro l
  induction l with
  | nil => intro acc h; exact Or.inl h
  | cons x xs ih =>
    intro acc h
    rcases ih _ h with h' | h'
    · match acc with
      | none =>
        simp only [Option.some.injEq] at h'
        exact Or.inr (h' ▸ List.mem_cons_self x xs)
      | some b =>
        rcases hx : x.issue_date with _ | v <;> rcases hb : b.issue_date with _ | w <;>
          simp only [hx, hb] at h'
        · exact Or.inl h'
        · exact Or.inl h'
        · simp only [Option.some.injEq] at h'
          exact Or.inr (h' ▸ List.mem_cons_self x xs)
        · by_cases hlt : w < v
          · simp only [if_pos hlt, Option.some.injEq] at h'
            exact Or.inr (h' ▸ List.mem_cons_self x xs)
          · simp only [if_neg hlt] at h'
            exact Or.inl h'
    · exact Or.inr (List.mem_cons_of_mem x h')

lemma latestByIssue_mem {certs : List Certificate} {c : Certificate}
    (h : latestByIssue certs = some c) : c ∈ certs := by
  rcases latestByIssue_aux certs none h with h' | h'
  · exact absurd h' (by simp)
  · exact h'

lemma get_latest_certificate_fields {db : DB} {pid : Nat}
    {ct : CertificateType} {u : Nat} {c : Certificate}
    (h : db.get_latest_certificate pid ct u = some c) :
    c ∈ db.certificates ∧ c.property_id = pid ∧ c.certificate_type = ct
      ∧ c.user_id = u := by
  unfold DB.get_latest_certificate at h
  have hm := latestByIssue_mem h
  rw [List.mem_filter] at hm
  obtain ⟨h1, h2⟩ := hm
  simp only [Bool.and_eq_true, beq_iff_eq] at h2
  exact ⟨h1, h2.1.1, h2.1.2, h2.2⟩

lemma threshold_emission_none_user (db : DB) (ty : String) (iid : Nat)
    (n a : String) (e today : Day) :
    threshold_emission db none ty iid n a e today = [] := by
  cases h : matched_threshold (e - today) <;> simp [threshold_emission, h]

lemma create_rules_certOnly : ∀ r ∈ create_rules, CertOnly r := by
  intro r hr
  simp only [create_rules, List.mem_cons, List.not_mem_nil, or_false] at hr
  rcases hr with rfl | rfl | rfl | rfl | rfl | rfl | rfl | rfl | rfl | rfl | rfl | rfl | rfl <;>
    intro db u t l <;> rfl

lemma assignIds_length : ∀ (n : Nat) (l : List ComplianceEvent),
    (assignIds n l).length = l.length := by
  intro n l
  induction l generalizing n with
  | nil => rfl
  | cons e rest ih => simp [assignIds, ih]

lemma assignIds_map {α : Type} (f : ComplianceEvent → α)
    (hf : ∀ e m, f { e with id := m } = f e) :
    ∀ (n : Nat) (l : List ComplianceEvent),
      (assignIds n l).map f = l.map f := by
  intro n l
  induction l generalizing n with
  | nil => rfl
  | cons e rest ih => simp [assignIds, hf, ih]

lemma assignIds_mem : ∀ {n : Nat} {l : List ComplianceEvent}
    {e : ComplianceEvent}, e ∈ assignIds n l →
    ∃ e0 ∈ l, ∃ m, e = { e0 with id := m } := by
  intro n l
  induction l generalizing n with
  | nil => intro e h; simp [assignIds] at h
  | cons x rest ih =>
    intro e h
    rw [assignIds, List.mem_cons] at h
    rcases h with rfl | h
    · exact ⟨x, List.mem_cons_self x rest, n, rfl⟩
    · obtain ⟨e0, he0, m, hm⟩ := ih h
      exact ⟨e0, List.mem_cons_of_mem x he0, m, hm⟩

lemma planned_events_mem {certs : List Certificate} {u : Nat} {t : Tenancy}
    {today : Day} {tid : Nat} {rules : List ComplianceRule}
    {e : ComplianceEvent} (h : e ∈ planned_events certs u t today tid rules) :
    ∃ r ∈ rules, (r.calculate_due_date (certsOnly certs) u t none).isSome
      ∧ e.event_type = r.event_type ∧ e.tenancy_id = some tid
      ∧ e.user_id = u := by
  rw [planned_events, List.mem_filterMap] at h
  obtain ⟨r, hr, hmap⟩ := h
  rw [Option.map_eq_some'] at hmap
  obtain ⟨due, hdue, hrec⟩ := hmap
  subst hrec
  exact ⟨r, hr, by simp [hdue], rfl, rfl, rfl⟩

lemma generate_fold_spec (u : Nat) (t : Tenancy) (today : Day) (tid : Nat) :
    ∀ (rules : List ComplianceRule), (∀ r ∈ rules, CertOnly r) →
    ∀ (db0 : DB) (acc : List ComplianceEvent),
      rules.foldl (generate_step u t today tid) (db0, acc) =
        ({ db0 with
            events := db0.events ++ assignIds db0.next_event_id
              (planned_events db0.certificates u t today tid rules)
            next_event_id := db0.next_event_id +
              (planned_events db0.certificates u t today tid rules).length },
          acc ++ assignIds db0.next_event_id
            (planned_events db0.certificates u t today tid rules)) := by
  intro rules
  induction rules with
  | nil =>
    intro _ db0 acc
    simp [planned_events, assignIds]
  | cons r rs ih =>
    intro hco db0 acc
    have hr : r.calculate_due_date db0 u t none
        = r.calculate_due_date (certsOnly db0.certificates) u t none :=
      hco r (List.mem_cons_self r rs) db0 u t none
    rw [List.foldl_cons]
    cases hval : r.calculate_due_date (certsOnly db0.certificates) u t none with
    | none =>
      have hstep : generate_step u t today tid (db0, acc) r = (db0, acc) := by
        simp [generate_step, hr, hval]
      rw [hstep, ih (fun x hx => hco x (List.mem_cons_of_mem r hx)) db0 acc]
      simp [planned_events, List.filterMap_cons, hval]
    | some due =>
      have hstep : generate_step u t today tid (db0, acc) r =
          ({ db0 with
              events := db0.events ++
                [{ id := db0.next_event_id
                   user_id := u
                   property_id := t.property_id
                   tenancy_id := some tid
                   event_type := r.event_type
                   event_name := r.event_name
                   due_date := some due
                   completed_date := none
                   status := if due < today then EventStatus.overdue
                     else EventStatus.pending
                   priority := r.priority
                   notes := r.description }]
              next_event_id := db0.next_event_id + 1 },
            acc ++
              [{ id := db0.next_event_id
                 user_id := u
                 property_id := t.property_id
                 tenancy_id := some tid
                 event_type := r.event_type
                 event_name := r.event_name
                 due_date := some due
                 completed_date := none
                 status := if due < today then EventStatus.overdue
                   else EventStatus.pending
                 priority := r.priority
                 notes := r.description }]) := by
        simp [generate_step, hr, hval, DB.create_event]
      rw [hstep, ih (fun x hx => hco x (List.mem_cons_of_mem r hx))]
      simp only [planned_events, List.filterMap_cons, hval, Option.map_some']
      rw [Prod.mk.injEq]
      constructor
      · rw [DB.mk.injEq]
        refine ⟨rfl, rfl, ?_, rfl, ?_⟩
        · rw [assignIds, List.append_assoc, List.singleton_append]
        · rw [List.length_cons]
          omega
      · rw [assignIds, List.append_assoc, List.singleton_append]

lemma generate_for_tenancy_spec (db : DB) (u : Nat) (t : Tenancy)
    (today : Day) (tid : Nat) (hid : t.id = some tid) (h0 : tid ≠ 0) :
    generate_for_tenancy db u t today =
      ({ db.delete_events_for_tenancy tid u with
          events := (db.delete_events_for_tenancy tid u).events ++
            assignIds db.next_event_id
              (planned_events db.certificates u t today tid create_rules)
          next_event_id := db.next_event_id +
            (planned_events db.certificates u t today tid create_rules).length },
        assignIds db.next_event_id
          (planned_events db.certificates u t today tid create_rules)) := by
  unfold generate_for_tenancy
  rw [hid]
  simp only [h0, if_false]
  exact generate_fold_spec u t today tid create_rules create_rules_certOnly
    (db.delete_events_for_tenancy tid u) []

lemma upcoming_fold_list (u : Nat) (today cutoff : Day) :
    ∀ (l : List ComplianceEvent) (db0 : DB) (acc : List ComplianceEvent),
      (l.foldl (upcoming_step u today cutoff) (db0, acc)).2
        = acc ++ (l.filter (in_window cutoff)).map (lazy_flip today) := by
  intro l
  induction l with
  | nil => intro db0 acc; simp
  | cons e rest ih =>
    intro db0 acc
    rw [List.foldl_cons]
    by_cases hc : e.status = .completed
    · have hs : upcoming_step u today cutoff (db0, acc) e = (db0, acc) := by
        simp [upcoming_step, hc]
      rw [hs, ih]
      simp [in_window, hc]
    · rcases hd : e.due_date with _ | d
      · have hs : upcoming_step u today cutoff (db0, acc) e = (db0, acc) := by
          simp [upcoming_step, hc, hd]
        rw [hs, ih]
        simp [in_window, hc, hd]
      · by_cases hcut : d ≤ cutoff
        · by_cases hflip : d < today ∧ e.status ≠ .overdue
          · have hs : upcoming_step u today cutoff (db0, acc) e
                = (db0.update_event_status e.id u .overdue,
                  acc ++ [{ e with status := .overdue }]) := by
              simp [upcoming_step, hc, hd, hcut, hflip]
            rw [hs, ih]
            simp [in_window, hc, hd, hcut, lazy_flip, hflip]
          · have hs : upcoming_step u today cutoff (db0, acc) e
                = (db0, acc ++ [e]) := by
              simp [upcoming_step, hc, hd, hcut, hflip]
            rw [hs, ih]
            simp [in_window, hc, hd, hcut, lazy_flip, hflip]
        · have hs : upcoming_step u today cutoff (db0, acc) e = (db0, acc) := by
            simp [upcoming_step, hc, hd, hcut]
          rw [hs, ih]
          simp [in_window, hc, hd, hcut]

lemma eventLe_trans :
    ∀ (a b c : ComplianceEvent), eventLe a b → eventLe b c → eventLe a c := by
  intro a b c hab hbc
  obtain ⟨pa, hpa⟩ : ∃ n, priority_order a.priority = n := ⟨_, rfl⟩
  obtain ⟨pb, hpb⟩ : ∃ n, priority_order b.priority = n := ⟨_, rfl⟩
  obtain ⟨pc, hpc⟩ : ∃ n, priority_order c.priority = n := ⟨_, rfl⟩
  rcases ha : a.due_date with _ | x <;> rcases hb : b.due_date with _ | y <;>
    rcases hc : c.due_date with _ | z <;>
    simp [eventLe, ha, hb, hc, hpa, hpb, hpc] at hab hbc ⊢ <;>
    (try dsimp only [Day] at *) <;> omega

lemma eventLe_total : ∀ (a b : ComplianceEvent), eventLe a b || eventLe b a := by
  intro a b
  obtain ⟨pa, hpa⟩ : ∃ n, priority_order a.priority = n := ⟨_, rfl⟩
  obtain ⟨pb, hpb⟩ : ∃ n, priority_order b.priority = n := ⟨_, rfl⟩
  rcases ha : a.due_date with _ | x <;> rcases hb : b.due_date with _ | y <;>
    simp [eventLe, ha, hb, hpa, hpb] <;> (try dsimp only [Day] at *) <;> omega

lemma forall₂_mem_right {α β : Type} {R : α → β → Prop} :
    ∀ {l1 : List α} {l2 : List β}, List.Forall₂ R l1 l2 →
      ∀ {b : β}, b ∈ l2 → ∃ a ∈ l1, R a b := by
  intro l1 l2 h
  induction h with
  | nil => intro b hb; simp at hb
  | @cons a b l1' l2' hR _ ih =>
    intro x hx
    rcases List.mem_cons.mp hx with rfl | hx
    · exact ⟨a, List.mem_cons_self a l1', hR⟩
    · obtain ⟨a', ha', hab⟩ := ih hx
      exact ⟨a', List.mem_cons_of_mem a ha', hab⟩

lemma forall₂_map_right_mem {α β : Type} {R : α → β → Prop} (f : β → β) :
    ∀ {l1 : List α} {l2 : List β}, List.Forall₂ R l1 l2 →
      (∀ a b, a ∈ l1 → R a b → R a (f b)) →
      List.Forall₂ R l1 (l2.map f) := by
  intro l1 l2 h
  induction h with
  | nil => intro _; simp
  | @cons a b l1' l2' hR _ ih =>
    intro hf
    rw [List.map_cons]
    exact List.Forall₂.cons (hf a b (List.mem_cons_self a l1') hR)
      (ih (fun x y hx => hf x y (List.mem_cons_of_mem a hx)))

lemma Evolves.id_eq {s0 s : ComplianceEvent} (h : Evolves s0 s) :
    s.id = s0.id := by
  rcases h with rfl | ⟨-, rfl⟩ <;> rfl

lemma Evolves.user_eq {s0 s : ComplianceEvent} (h : Evolves s0 s) :
    s.user_id = s0.user_id := by
  rcases h with rfl | ⟨-, rfl⟩ <;> rfl

lemma upcoming_step_lazy (u : Nat) (today cutoff : Day) :
    LazyStep u today (upcoming_step u today cutoff) := by
  intro acc e
  by_cases hc : e.status = .completed
  · left; simp [upcoming_step, hc]
  · rcases hd : e.due_date with _ | d
    · left; simp [upcoming_step, hc, hd]
    · by_cases hcut : d ≤ cutoff
      · by_cases hflip : d < today ∧ e.status ≠ .overdue
        · right; right
          exact ⟨hc, ⟨d, rfl, hflip.1⟩,
            by simp [upcoming_step, hc, hd, hcut, hflip]⟩
        · right; left
          refine ⟨hc, ?_, by simp [upcoming_step, hc, hd, hcut, hflip]⟩
          intro d' hd' hlt
          injection hd' with h'
          subst h'
          by_contra hov
          exact hflip ⟨hlt, hov⟩
      · left; simp [upcoming_step, hc, hd, hcut]

lemma overdue_step_lazy (u : Nat) (today : Day) :
    LazyStep u today (overdue_step u today) := by
  intro acc e
  by_cases hc : e.status = .completed
  · left; simp [overdue_step, hc]
  · rcases hd : e.due_date with _ | d
    · left; simp [overdue_step, hc, hd]
    · by_cases hlt : d < today
      · by_cases hov : e.status = .overdue
        · right; left
          refine ⟨hc, ?_, by simp [overdue_step, hc, hd, hlt, hov]⟩
          intro d' _ _
          exact hov
        · right; right
          exact ⟨hc, ⟨d, rfl, hlt⟩,
            by simp [overdue_step, hc, hd, hlt, hov]⟩
      · left; simp [overdue_step, hc, hd, hlt]

lemma lazy_fold_ok (u : Nat) (today : Day) (db : DB)
    (hnd : (db.events.map (fun e => e.id)).Nodup)
    (step : DB × List ComplianceEvent → ComplianceEvent →
      DB × List ComplianceEvent)
    (hstep : LazyStep u today step) :
    ∀ (l : List ComplianceEvent), (∀ e ∈ l, e ∈ db.events) →
    ∀ (db0 : DB) (acc : List ComplianceEvent),
      List.Forall₂ Evolves db.events db0.events →
      ReadResultOk u today db0 acc →
      List.Forall₂ Evolves db.events (l.foldl step (db0, acc)).1.events
        ∧ ReadResultOk u today (l.foldl step (db0, acc)).1
            (l.foldl step (db0, acc)).2 := by
  intro l
  induction l with
  | nil => intro _ db0 acc h1 h2; exact ⟨h1, h2⟩
  | cons e rest ih =>
    intro hmem db0 acc h1 h2
    have heDB : e ∈ db.events := hmem e (List.mem_cons_self e rest)
    have hrest : ∀ x ∈ rest, x ∈ db.events :=
      fun x hx => hmem x (List.mem_cons_of_mem e hx)
    rw [List.foldl_cons]
    rcases hstep (db0, acc) e with hs | ⟨hnc, hcond, hs⟩ | ⟨hnc, ⟨d, hd, hlt⟩, hs⟩
    · rw [hs]
      exact ih hrest db0 acc h1 h2
    · rw [hs]
      refine ih hrest db0 (acc ++ [e]) h1 ?_
      intro x hx
      rcases List.mem_append.mp hx with hx | hx
      · exact h2 x hx
      · rw [List.mem_singleton] at hx
        subst hx
        refine ⟨hnc, ?_⟩
        intro d' hd' hlt'
        refine ⟨hcond d' hd' hlt', ?_⟩
        intro s hsmem hsid hsu
        obtain ⟨s0, hs0, hev⟩ := forall₂_mem_right h1 hsmem
        have hid0 : s0.id = x.id := by rw [← hev.id_eq, hsid]
        have hs0e : s0 = x := List.inj_on_of_nodup_map hnd hs0 heDB hid0
        subst hs0e
        rcases hev with rfl | ⟨-, rfl⟩
        · exact hcond d' hd' hlt'
        · rfl
    · rw [hs]
      have hupd : ∀ s0 s, s0 ∈ db.events → Evolves s0 s →
          Evolves s0 (if s.id == e.id && s.user_id == u then
            { s with status := EventStatus.overdue, completed_date := none }
            else s) := by
        intro s0 s hs0 hev
        by_cases hm : (s.id == e.id && s.user_id == u) = true
        · rw [if_pos hm]
          rcases hev with rfl | ⟨hnc0, rfl⟩
          · right
            refine ⟨?_, rfl⟩
            have hid0 : s.id = e.id := by
              have := (Bool.and_eq_true _ _).mp hm
              exact beq_iff_eq.mp this.1
            have hse : s = e := List.inj_on_of_nodup_map hnd hs0 heDB hid0
            rw [hse]
            exact hnc
          · exact Or.inr ⟨hnc0, rfl⟩
        · rw [if_neg hm]
          exact hev
      refine ih hrest _ _ ?_ ?_
      · exact forall₂_map_right_mem _ h1 hupd
      · intro x hx
        rcases List.mem_append.mp hx with hx | hx
        · obtain ⟨hnc', hrest'⟩ := h2 x hx
          refine ⟨hnc', ?_⟩
          intro d' hd' hlt'
          obtain ⟨hov', hstore'⟩ := hrest' d' hd' hlt'
          refine ⟨hov', ?_⟩
          intro s' hs'mem hsid hsu
          rw [DB.update_event_status] at hs'mem
          obtain ⟨s, hsmem, rfl⟩ := List.mem_map.mp hs'mem
          by_cases hm : (s.id == e.id && s.user_id == u) = true
          · simp only [hm, if_pos]
          · rw [if_neg hm] at hsid hsu ⊢
            exact hstore' s hsmem hsid hsu
        · rw [List.mem_singleton] at hx
          subst hx
          refine ⟨by simp, ?_⟩
          intro d' hd' hlt'
          refine ⟨rfl, ?_⟩
          intro s' hs'mem hsid hsu
          rw [DB.update_event_status] at hs'mem
          obtain ⟨s, hsmem, rfl⟩ := List.mem_map.mp hs'mem
          by_cases hm : (s.id == e.id && s.user_id == u) = true
          · simp only [hm, if_pos]
          · exfalso
            rw [if_neg hm] at hsid hsu
            apply hm
            rw [Bool.and_eq_true, beq_iff_eq, beq_iff_eq]
            exact ⟨hsid, hsu⟩

lemma props_for_some (db : DB) (u : Nat) :
    props_for db (some u) = db.list_properties u := rfl

lemma latest_cert_for_some (db : DB) (u : Nat) (pid : Nat)
    (ct : CertificateType) :
    latest_cert_for db (some u) pid ct = db.get_latest_certificate pid ct u :=
  rfl

lemma events_for_some (db : DB) (u : Nat) (pid : Nat) :
    events_for db (some u) pid = db.list_events u (some pid) none none := rfl

lemma mem_threshold_emission {db : DB} {u : Nat} {ty : String} {iid : Nat}
    {n a : String} {exp today : Day} {it : ExpiryItem} :
    it ∈ threshold_emission db (some u) ty iid n a exp today ↔
      ∃ ld, matched_threshold (exp - today) = some ld
        ∧ reminder_already_sent db ty iid ld.2 u = false
        ∧ it = ⟨ty, iid, n, a, exp, exp - today, ld.1⟩ := by
  unfold threshold_emission
  cases hm : matched_threshold (exp - today) with
  | none => simp [hm]
  | some ld =>
    by_cases hs : reminder_already_sent db ty iid ld.2 u
    · simp [hm, hs]
    · simp only [hm, Option.some.injEq]
      rw [if_neg hs]
      constructor
      · intro h
        rw [List.mem_singleton] at h
        exact ⟨ld, rfl, by simp [hs], h⟩
      · rintro ⟨ld', rfl, -, rfl⟩
        exact List.mem_singleton.mpr rfl

lemma mem_get_expiring_certificates {db : DB} {ct : CertificateType}
    {today : Day} {u : Nat} {it : ExpiryItem} :
    it ∈ get_expiring_certificates db ct today (some u) ↔
      ∃ p, p ∈ db.list_properties u
        ∧ ∃ c, db.get_latest_certificate p.id ct u = some c
          ∧ ∃ exp, c.expiry_date = some exp
            ∧ it ∈ threshold_emission db (some u) "certificate" c.id
                (cert_name ct) (p.address ++ ", " ++ p.postcode) exp today := by
  unfold get_expiring_certificates
  rw [List.mem_flatMap]
  constructor
  · rintro ⟨p, hp, hit⟩
    rw [props_for_some] at hp
    rw [latest_cert_for_some] at hit
    rcases hl : db.get_latest_certificate p.id ct u with _ | c
    · simp [hl] at hit
    · simp only [hl] at hit
      rcases he : c.expiry_date with _ | exp
      · simp [he] at hit
      · simp only [he] at hit
        exact ⟨p, hp, c, hl, exp, he, hit⟩
  · rintro ⟨p, hp, c, hl, exp, he, hit⟩
    refine ⟨p, by rw [props_for_some]; exact hp, ?_⟩
    simp only [latest_cert_for_some, hl, he]
    exact hit

lemma mem_get_expiring_events {db : DB} {today : Day} {u : Nat}
    {it : ExpiryItem} :
    it ∈ get_expiring_events db today (some u) ↔
      ∃ p, p ∈ db.list_properties u
        ∧ ∃ e, e ∈ db.list_events u (some p.id) none none
          ∧ ∃ d, e.due_date = some d
            ∧ e.status = .pending
            ∧ it ∈ threshold_emission db (some u) "event" e.id e.event_name
                (p.address ++ ", " ++ p.postcode) d today := by
  unfold get_expiring_events
  rw [List.mem_flatMap]
  constructor
  · rintro ⟨p, hp, hit⟩
    rw [props_for_some] at hp
    rw [events_for_some] at hit
    rw [List.mem_flatMap] at hit
    obtain ⟨e, he, hit⟩ := hit
    rcases hd : e.due_date with _ | d
    · simp [hd] at hit
    · simp only [hd] at hit
      by_cases hs : e.status = .pending
      · rw [if_pos hs] at hit
        exact ⟨p, hp, e, he, d, hd, hs, hit⟩
      · rw [if_neg hs] at hit; simp at hit
  · rintro ⟨p, hp, e, he, d, hd, hs, hit⟩
    refine ⟨p, by rw [props_for_some]; exact hp, ?_⟩
    rw [events_for_some, List.mem_flatMap]
    refine ⟨e, he, ?_⟩
    simp only [hd, if_pos hs]
    exact hit

lemma mem_get_expiring_items {db : DB} {today : Day} {u : Nat}
    {it : ExpiryItem} :
    it ∈ get_expiring_items db today (some u) ↔
      (∃ ct, it ∈ get_expiring_certificates db ct today (some u))
        ∨ it ∈ get_expiring_events db today (some u) := by
  unfold get_expiring_items
  rw [List.mem_append, List.mem_flatMap]
  constructor
  · rintro (⟨ct, -, h⟩ | h)
    · exact Or.inl ⟨ct, h⟩
    · exact Or.inr h
  · rintro (⟨ct, h⟩ | h)
    · refine Or.inl ⟨ct, ?_, h⟩
      cases ct <;> simp [CertificateType.all]
    · exact Or.inr h

lemma cert_item_type {db : DB} {ct : CertificateType} {today : Day} {u : Nat}
    {it : ExpiryItem} (h : it ∈ get_expiring_certificates db ct today (some u)) :
    it.item_type = "certificate" := by
  obtain ⟨p, -, c, -, exp, -, hit⟩ := mem_get_expiring_certificates.mp h
  obtain ⟨ld, -, -, rfl⟩ := mem_threshold_emission.mp hit
  rfl

lemma event_item_type {db : DB} {today : Day} {u : Nat}
    {it : ExpiryItem} (h : it ∈ get_expiring_events db today (some u)) :
    it.item_type = "event" := by
  obtain ⟨p, -, e, -, d, -, -, hit⟩ := mem_get_expiring_events.mp h
  obtain ⟨ld, -, -, rfl⟩ := mem_threshold_emission.mp hit
  rfl

lemma flatMap_eq_of_single {α β : Type} {l : List α} {g : α → List β} {p : α}
    (hnd : l.Nodup) (hp : p ∈ l) (hz : ∀ x ∈ l, x ≠ p → g x = []) :
    l.flatMap g = g p := by
  induction l with
  | nil => simp at hp
  | cons a rest ih =>
    rw [List.flatMap_cons]
    by_cases hap : a = p
    · subst hap
      have hz' : ∀ x ∈ rest, g x = [] := by
        intro x hx
        refine hz x (List.mem_cons_of_mem a hx) ?_
        intro h
        subst h
        exact (List.nodup_cons.mp hnd).1 hx
      rw [List.flatMap_eq_nil_iff.mpr hz', List.append_nil]
    · have hp' : p ∈ rest :=
        (List.mem_cons.mp hp).resolve_left (fun h => hap h.symm)
      have ha : g a = [] := hz a (List.mem_cons_self a rest) hap
      rw [ha, List.nil_append]
      exact ih (List.nodup_cons.mp hnd).2 hp'
        (fun x hx => hz x (List.mem_cons_of_mem a hx))

lemma certItems_filter_other {db : DB} {today : Day} {u : Nat}
    {ct ct' : CertificateType} {c : Certificate}
    (hndC : (db.certificates.map (fun x => x.id)).Nodup)
    (hcmem : c ∈ db.certificates) (hct : c.certificate_type = ct)
    (hne : ct' ≠ ct) :
    (get_expiring_certificates db ct' today (some u)).filter
      (fun i => i.item_type == "certificate" && i.item_id == c.id) = [] := by
  apply List.filter_eq_nil_iff.mpr
  intro it hit hq
  obtain ⟨p', hp', c', hl', exp', he', hemit⟩ :=
    mem_get_expiring_certificates.mp hit
  obtain ⟨ld, -, -, rfl⟩ := mem_threshold_emission.mp hemit
  simp only [Bool.and_eq_true, beq_iff_eq] at hq
  have hfields := get_latest_certificate_fields hl'
  have hcc : c' = c :=
    List.inj_on_of_nodup_map hndC hfields.1 hcmem hq.2
  apply hne
  rw [← hfields.2.2.1, hcc, hct]

lemma eventItems_filter_cert {db : DB} {today : Day} {u : Nat} {cid : Nat} :
    (get_expiring_events db today (some u)).filter
      (fun i => i.item_type == "certificate" && i.item_id == cid) = [] := by
  apply List.filter_eq_nil_iff.mpr
  intro it hit hq
  have hty := event_item_type hit
  simp only [Bool.and_eq_true, beq_iff_eq] at hq
  rw [hty] at hq
  exact absurd hq.1 (by decide)

lemma certItems_filter_self {db : DB} {today : Day} {u : Nat} {p : Property}
    {ct : CertificateType} {c : Certificate}
    (hndP : (db.properties.map (fun x => x.id)).Nodup)
    (hndC : (db.certificates.map (fun x => x.id)).Nodup)
    (hp : p ∈ db.properties) (hpu : p.user_id = u)
    (hc : db.get_latest_certificate p.id ct u = some c)
    (he : c.expiry_date = some (today + 10))
    (hm : reminder_already_sent db "certificate" c.id 90 u = false) :
    (get_expiring_certificates db ct today (some u)).filter
        (fun i => i.item_type == "certificate" && i.item_id == c.id)
      = [⟨"certificate", c.id, cert_name ct,
          p.address ++ ", " ++ p.postcode, today + 10, 10, "3 months"⟩] := by
  have hcf := get_latest_certificate_fields hc
  unfold get_expiring_certificates
  rw [List.filter_flatMap, props_for_some]
  have hpl : p ∈ db.list_properties u :=
    List.mem_filter.mpr ⟨hp, by simp [hpu]⟩
  have hndPl : (db.list_properties u).Nodup := (hndP.of_map _).filter _
  have hz : ∀ p' ∈ db.list_properties u, p' ≠ p →
      (((match latest_cert_for db (some u) p'.id ct with
        | some cert =>
          match cert.expiry_date with
          | some exp =>
            threshold_emission db (some u) "certificate" cert.id
              (cert_name ct) (p'.address ++ ", " ++ p'.postcode) exp today
          | none => []
        | none => []) : List ExpiryItem).filter
        (fun i => i.item_type == "certificate" && i.item_id == c.id)) = [] := by
    intro p' hp' hne
    rcases hl' : db.get_latest_certificate p'.id ct u with _ | c'
    · simp [latest_cert_for_some, hl']
    · rcases he' : c'.expiry_date with _ | exp'
      · simp [latest_cert_for_some, hl', he']
      · simp only [latest_cert_for_some, hl', he']
        apply List.filter_eq_nil_iff.mpr
        intro it hit hq
        obtain ⟨ld, -, -, rfl⟩ := mem_threshold_emission.mp hit
        simp only [Bool.and_eq_true, beq_iff_eq] at hq
        have hfl := get_latest_certificate_fields hl'
        have hcc : c' = c :=
          List.inj_on_of_nodup_map hndC hfl.1 hcf.1 hq.2
        have hpid : p'.id = p.id := by rw [← hfl.2.1, hcc, hcf.2.1]
        have hpp : p' = p :=
          List.inj_on_of_nodup_map hndP (List.mem_filter.mp hp').1 hp hpid
        exact hne hpp

  rw [flatMap_eq_of_single hndPl hpl hz]
  simp only [latest_cert_for_some, hc, he]
  have hdu : today + 10 - today = (10 : Day) := add_sub_cancel_left today 10
  have hmt : matched_threshold 10 = some ("3 months", 90) := rfl
  have hemit : threshold_emission db (some u) "certificate" c.id
      (cert_name ct) (p.address ++ ", " ++ p.postcode) (today + 10) today
      = [⟨"certificate", c.id, cert_name ct,
          p.address ++ ", " ++ p.postcode, today + 10, 10, "3 months"⟩] := by
    simp only [threshold_emission, hdu, hmt, hm]
    simp
  rw [hemit]
  simp

lemma already_sent_of_mem {db : DB} {ty : String} {iid : Nat} {days : Int}
    {u : Nat} (h : (⟨u, ty, iid, days⟩ : SentReminder) ∈ db.sent_reminders) :
    reminder_already_sent db ty iid days u = true := by
  unfold reminder_already_sent
  rw [List.any_eq_true]
  exact ⟨_, h, by simp⟩

lemma mem_of_already_sent {db : DB} {ty : String} {iid : Nat} {days : Int}
    {u : Nat} (h : reminder_already_sent db ty iid days u = true) :
    (⟨u, ty, iid, days⟩ : SentReminder) ∈ db.sent_reminders := by
  unfold reminder_already_sent at h
  rw [List.any_eq_true] at h
  obtain ⟨r, hr, hp⟩ := h
  simp only [Bool.and_eq_true, beq_iff_eq] at hp
  obtain ⟨⟨⟨h1, h2⟩, h3⟩, h4⟩ := hp
  cases r
  subst h1 h2 h3 h4
  exact hr

lemma mark_reminder_sent_shape (db : DB) (ty : String) (iid : Nat)
    (days : Int) (u : Nat) :
    ∃ s, mark_reminder_sent db ty iid days u = { db with sent_reminders := s } := by
  unfold mark_reminder_sent
  split
  · exact ⟨db.sent_reminders, rfl⟩
  · exact ⟨_, rfl⟩

lemma mark_reminder_sent_mem {db : DB} {ty : String} {iid : Nat} {days : Int}
    {u : Nat} {r : SentReminder} (h : r ∈ db.sent_reminders) :
    r ∈ (mark_reminder_sent db ty iid days u).sent_reminders := by
  unfold mark_reminder_sent
  split
  · exact h
  · exact List.mem_append.mpr (Or.inl h)

lemma mark_reminder_sent_self (db : DB) (ty : String) (iid : Nat)
    (days : Int) (u : Nat) :
    (⟨u, ty, iid, days⟩ : SentReminder)
      ∈ (mark_reminder_sent db ty iid days u).sent_reminders := by
  unfold mark_reminder_sent
  split
  · next h => exact mem_of_already_sent h
  · simp

lemma mark_items_sent_shape (u : Nat) :
    ∀ (items : List ExpiryItem) (db : DB),
      ∃ s, mark_items_sent db u items = { db with sent_reminders := s } := by
  intro items
  induction items with
  | nil => exact fun db => ⟨db.sent_reminders, rfl⟩
  | cons it rest ih =>
    intro db
    rw [mark_items_sent, List.foldl_cons]
    cases hf : REMINDER_SCHEDULE.find? (fun x => x.1 == it.reminder_label) with
    | none =>
      simp only [hf]
      exact ih db
    | some ld =>
      simp only [hf]
      obtain ⟨s1, hs1⟩ := mark_reminder_sent_shape db it.item_type it.item_id
        ld.2 u
      obtain ⟨s2, hs2⟩ := ih (mark_reminder_sent db it.item_type it.item_id
        ld.2 u)
      rw [show (List.foldl _ (mark_reminder_sent db it.item_type it.item_id ld.2 u) rest)
          = mark_items_sent (mark_reminder_sent db it.item_type it.item_id ld.2 u) u rest
        from rfl, hs2, hs1]
      exact ⟨s2, rfl⟩

lemma mark_items_sent_mem {u : Nat} :
    ∀ (items : List ExpiryItem) (db : DB) (r : SentReminder),
      r ∈ db.sent_reminders →
      r ∈ (mark_items_sent db u items).sent_reminders := by
  intro items
  induction items with
  | nil => exact fun db r h => h
  | cons it rest ih =>
    intro db r h
    rw [mark_items_sent, List.foldl_cons]
    cases hf : REMINDER_SCHEDULE.find? (fun x => x.1 == it.reminder_label) with
    | none =>
      simp only [hf]
      exact ih db r h
    | some ld =>
      simp only [hf]
      exact ih _ r (mark_reminder_sent_mem h)

lemma mark_items_sent_marks {u : Nat} :
    ∀ (items : List ExpiryItem) (db : DB) (it : ExpiryItem), it ∈ items →
      ∀ ld, REMINDER_SCHEDULE.find? (fun x => x.1 == it.reminder_label) = some ld →
      (⟨u, it.item_type, it.item_id, ld.2⟩ : SentReminder)
        ∈ (mark_items_sent db u items).sent_reminders := by
  intro items
  induction items with
  | nil => intro db it h; simp at h
  | cons it0 rest ih =>
    intro db it hit ld hld
    rw [mark_items_sent, List.foldl_cons]
    rcases List.mem_cons.mp hit with rfl | hit'
    · rw [hld]
      exact mark_items_sent_mem rest _ _ (mark_reminder_sent_self db
        it.item_type it.item_id ld.2 u)
    · cases hf : REMINDER_SCHEDULE.find? (fun x => x.1 == it0.reminder_label) with
      | none =>
        simp only [hf]
        exact ih db it hit' ld hld
      | some ld0 =>
        simp only [hf]
        exact ih _ it hit' ld hld

lemma matched_label_lookup {du : Int} {ld : String × Int}
    (h : matched_threshold du = some ld) :
    REMINDER_SCHEDULE.find? (fun x => x.1 == ld.1) = some ld := by
  have hmem : ld ∈ REMINDER_SCHEDULE := List.mem_of_find?_eq_some h
  simp only [REMINDER_SCHEDULE, List.mem_cons, List.not_mem_nil, or_false]
    at hmem
  rcases hmem with rfl | rfl | rfl | rfl | rfl | rfl <;> rfl

/-! ### Claim theorems -/

/-- C10.  With no owner (`user_id = None`, the system-wide reminder path),
`get_expiring_items` always returns the empty list: the threshold loop stops
at the first match but appends only when a user id is present, so neither a
certificate nor an event item is ever emitted. -/
theorem get_expiring_items_no_owner_empty (db : DB) (today : Day) :
    get_expiring_items db today none = [] := by
  unfold get_expiring_items
  rw [List.append_eq_nil]
  constructor
  · rw [List.flatMap_eq_nil_iff]
    intro ct _
    unfold get_expiring_certificates
    rw [List.flatMap_eq_nil_iff]
    intro p _
    rcases hl : latest_cert_for db none p.id ct with _ | c
    · simp [hl]
    · rcases he : c.expiry_date with _ | exp
      · simp [hl, he]
      · simp [hl, he, threshold_emission_none_user]
  · unfold get_expiring_events
    rw [List.flatMap_eq_nil_iff]
    intro p _
    rw [List.flatMap_eq_nil_iff]
    intro e _
    rcases hd : e.due_date with _ | d
    · simp [hd]
    · by_cases hs : e.status = .pending
      · simp [hd, if_pos hs, threshold_emission_none_user]
      · simp [hd, if_neg hs]

/-- C2 counterexample.  A tenancy starting on day 0 whose property has no EPC
certificate: the epc_renewal due date is day 0 (the start date itself), not
start + 10 years (day 3650) as the claim states. -/
theorem epc_renewal_counterexample :
    epc_due_date emptyDB 1 epcT none = some 0
      ∧ epc_due_date emptyDB 1 epcT none ≠ some (0 + 365 * 10) := by
  constructor
  · rfl
  · decide

/-- C2 (amended).  With no EPC certificate on the property the epc_renewal
due date is the tenancy start date itself (the code treats a missing EPC as
needed now); whenever the latest EPC certificate has an expiry date, the due
date is that expiry date instead. -/
theorem epc_renewal_due_date (db : DB) (u : Nat) (t : Tenancy)
    (c : Certificate) (D S : Day) (l : Option Day) :
    (db.certificates.filter
        (fun x => x.property_id == t.property_id
          && x.certificate_type == CertificateType.epc && x.user_id == u) = [] →
      t.tenancy_start_date = some S → epc_due_date db u t l = some S)
    ∧ (db.get_latest_certificate t.property_id .epc u = some c →
      c.expiry_date = some D → epc_due_date db u t l = some D) := by
  constructor
  · intro hnone hs
    simp [epc_due_date, DB.get_latest_certificate, hnone, latestByIssue, hs]
  · intro hlat hexp
    simp [epc_due_date, hlat, hexp]

/-- Witness for the amended C2: with no EPC certificate the due date is the
start date (day 0); with an EPC certificate expiring on day 200 it is
day 200. -/
theorem epc_renewal_due_date_witness :
    epc_due_date emptyDB 1 epcT none = some 0
      ∧ epc_due_date epcDB 1 epcT none = some 200 :=
  ⟨(epc_renewal_due_date emptyDB 1 epcT ⟨0, 0, 0, .epc, none, none⟩ 0 0 none).1
      (by decide) rfl,
    (epc_renewal_due_date epcDB 1 epcT ⟨1, 1, 1, .epc, some 0, some 200⟩ 200 0
          none).2
      (by decide) rfl⟩

/-- C4.  The gas_safety_renewal due date: when the latest gas safety
certificate (the one `get_latest_certificate` returns, max issue date) has
expiry date D, the due date is D; when the property has no gas safety
certificate and the tenancy starts on S, the due date is S + 365 — the
certificate takes precedence over the fallback once present. -/
theorem gas_safety_renewal_due_date (db : DB) (u : Nat) (t : Tenancy)
    (c : Certificate) (D S : Day) (l : Option Day) :
    (db.get_latest_certificate t.property_id .gas_safety u = some c →
      c.expiry_date = some D → gas_safety_due_date db u t l = some D)
    ∧ (db.certificates.filter
        (fun x => x.property_id == t.property_id
          && x.certificate_type == CertificateType.gas_safety
          && x.user_id == u) = [] →
      t.tenancy_start_date = some S →
      gas_safety_due_date db u t l = some (S + 365)) := by
  constructor
  · intro hlat hexp
    simp [gas_safety_due_date, hlat, hexp]
  · intro hnone hs
    simp [gas_safety_due_date, DB.get_latest_certificate, hnone, latestByIssue,
      hs]

/-- Witness for C4: the certificate of `gasDB` expires on day 110 so the due
date is 110; with no certificate the due date is 0 + 365. -/
theorem gas_safety_renewal_due_date_witness :
    gas_safety_due_date gasDB 1 epcT none = some 110
      ∧ gas_safety_due_date emptyDB 1 epcT none = some (0 + 365) :=
  ⟨(gas_safety_renewal_due_date gasDB 1 epcT
        ⟨1, 1, 1, .gas_safety, some 0, some 110⟩ 110 0 none).1 (by decide) rfl,
    (gas_safety_renewal_due_date emptyDB 1 epcT
          ⟨0, 0, 0, .gas_safety, none, none⟩ 0 0 none).2 (by decide) rfl⟩

/-- C7.  When the mail transport fails during `send_reminders` (and there was
at least one item, so the transport was actually invoked), the call returns
an error-status result, the store is unchanged — no ReminderSentMarker is
written — and an immediate re-run of `get_expiring_items` yields the same
items, still eligible at the same thresholds. -/
theorem send_reminders_transport_failure (db : DB) (u : Nat) (today : Day)
    (hne : get_expiring_items db today (some u) ≠ []) :
    send_reminders db u today false = (db, ⟨"error", 0⟩)
      ∧ get_expiring_items (send_reminders db u today false).1 today (some u)
        = get_expiring_items db today (some u) := by
  have h : send_reminders db u today false = (db, ⟨"error", 0⟩) := by
    unfold send_reminders
    rw [if_neg (by simpa using hne)]
    rfl
  exact ⟨h, by rw [h]⟩

/-- Witness for C7: `gasDB` has one expiring item for user 1 on day 100; the
failed send leaves the store unchanged and reports an error. -/
theorem send_reminders_transport_failure_witness :
    get_expiring_items gasDB 100 (some 1) ≠ []
      ∧ send_reminders gasDB 1 100 false = (gasDB, ⟨"error", 0⟩) :=
  ⟨by decide, (send_reminders_transport_failure gasDB 1 100 (by decide)).1⟩

/-- C8.  For a tenancy with a zero deposit, `generate_for_tenancy` creates no
deposit_protection and no prescribed_info event: the two deposit rules
return a null due date (silently skipped), every other rule has a different
event type. -/
theorem generate_zero_deposit_no_deposit_events (db : DB) (u : Nat)
    (t : Tenancy) (today : Day) (h : t.deposit_amount = 0) :
    ∀ e ∈ (generate_for_tenancy db u t today).2,
      e.event_type ≠ "deposit_protection"
        ∧ e.event_type ≠ "prescribed_info" := by
  intro e he
  rcases ht : t.id with _ | tid
  · unfold generate_for_tenancy at he
    rw [ht] at he
    simp at he
  · by_cases h0 : tid = 0
    · unfold generate_for_tenancy at he
      rw [ht] at he
      simp [h0] at he
    · rw [generate_for_tenancy_spec db u t today tid ht h0] at he
      obtain ⟨e0, he0, m, rfl⟩ := assignIds_mem he
      obtain ⟨r, hr, hsome, hty, -, -⟩ := planned_events_mem he0
      have hty' : ComplianceEvent.event_type { e0 with id := m }
          = r.event_type := hty
      rw [hty']
      simp only [create_rules, List.mem_cons, List.not_mem_nil, or_false] at hr
      rcases hr with rfl | rfl | rfl | rfl | rfl | rfl | rfl | rfl | rfl | rfl | rfl | rfl | rfl
      · exfalso
        rcases hs : t.tenancy_start_date with _ | s <;>
          simp [hs, h] at hsome
      · exfalso
        rcases hs : t.tenancy_start_date with _ | s <;>
          simp [hs, h] at hsome
      all_goals exact ⟨by decide, by decide⟩

/-- Witness for C8: the zero-deposit tenancy `epcT` generates no deposit
events over the empty store. -/
theorem generate_zero_deposit_witness :
    epcT.deposit_amount = 0
      ∧ ∀ e ∈ (generate_for_tenancy emptyDB 1 epcT 100).2,
          e.event_type ≠ "deposit_protection"
            ∧ e.event_type ≠ "prescribed_info" :=
  ⟨rfl, generate_zero_deposit_no_deposit_events emptyDB 1 epcT 100 rfl⟩

/-- C3 counterexample.  The claim quantifies over every tenancy with a
non-null id, but the code's guard `not tenancy.id` also returns early for
the integer id 0 (Python truthiness): with a stale stored event for tenancy
0, both calls create nothing and the stale event survives, so the stored
events for the tenancy are not those created by the second call. -/
theorem generate_idempotence_counterexample :
    zeroIdT.id = some 0
      ∧ ((generate_for_tenancy (generate_for_tenancy staleDB 1 zeroIdT 10).1
            1 zeroIdT 10).1).events.filter
          (fun e => e.tenancy_id == some 0 && e.user_id == 1)
        ≠ (generate_for_tenancy (generate_for_tenancy staleDB 1 zeroIdT 10).1
            1 zeroIdT 10).2 := by
  constructor
  · rfl
  · decide

/-- C3 (amended).  For every tenancy with a non-null, non-zero id (the
code's truthiness guard treats id 0 like a missing id), running
`generate_for_tenancy` twice with no intervening state change yields the
same number of events with identical due dates, and the stored events for
that tenancy (and user) after the second call are exactly the events the
second call created — full delete-and-recreate, no accumulation. -/
theorem generate_idempotent (db : DB) (u : Nat) (t : Tenancy) (today : Day)
    (tid : Nat) (hid : t.id = some tid) (h0 : tid ≠ 0) :
    ((generate_for_tenancy db u t today).2).length
        = ((generate_for_tenancy (generate_for_tenancy db u t today).1
            u t today).2).length
      ∧ ((generate_for_tenancy db u t today).2).map (fun e => e.due_date)
        = ((generate_for_tenancy (generate_for_tenancy db u t today).1
            u t today).2).map (fun e => e.due_date)
      ∧ ((generate_for_tenancy (generate_for_tenancy db u t today).1
            u t today).1).events.filter
            (fun e => e.tenancy_id == some tid && e.user_id == u)
        = (generate_for_tenancy (generate_for_tenancy db u t today).1
            u t today).2 := by
  rw [generate_for_tenancy_spec db u t today tid hid h0]
  rw [generate_for_tenancy_spec _ u t today tid hid h0]
  refine ⟨?_, ?_, ?_⟩
  · rw [assignIds_length, assignIds_length]
    rfl
  · rw [assignIds_map (fun e => e.due_date) (fun e m => rfl),
      assignIds_map (fun e => e.due_date) (fun e m => rfl)]
    rfl
  · have hall : ∀ (n : Nat),
        (assignIds n
            (planned_events db.certificates u t today tid create_rules)).filter
          (fun e => e.tenancy_id == some tid && e.user_id == u)
        = assignIds n
            (planned_events db.certificates u t today tid create_rules) := by
      intro n
      apply List.filter_eq_self.mpr
      intro a ha
      obtain ⟨e0, he0, m, rfl⟩ := assignIds_mem ha
      obtain ⟨r, -, -, -, hten, husr⟩ := planned_events_mem he0
      have h1 : ComplianceEvent.tenancy_id { e0 with id := m }
          = some tid := hten
      have h2 : ComplianceEvent.user_id { e0 with id := m } = u := husr
      rw [Bool.and_eq_true, beq_iff_eq, beq_iff_eq]
      exact ⟨h1, h2⟩
    simp only [DB.delete_events_for_tenancy, List.filter_append,
      List.filter_filter]
    have hz1 : List.filter
        (fun a => (a.tenancy_id == some tid && a.user_id == u)
          && (!(a.tenancy_id == some tid && a.user_id == u)
            && !(a.tenancy_id == some tid && a.user_id == u)))
        db.events = [] := by
      apply List.filter_eq_nil_iff.mpr
      intro a _
      cases h : (a.tenancy_id == some tid && a.user_id == u) <;> simp [h]
    have hz2 : List.filter
        (fun a => (a.tenancy_id == some tid && a.user_id == u)
          && !(a.tenancy_id == some tid && a.user_id == u))
        (assignIds db.next_event_id
          (planned_events db.certificates u t today tid create_rules)) = [] := by
      apply List.filter_eq_nil_iff.mpr
      intro a _
      cases h : (a.tenancy_id == some tid && a.user_id == u) <;> simp [h]
    rw [hz1, hz2, hall]
    simp

/-- Witness for the amended C3, at tenancy id 1 over `gasDB`. -/
theorem generate_idempotent_witness :
    ((generate_for_tenancy gasDB 1 epcT 100).2).length
        = ((generate_for_tenancy (generate_for_tenancy gasDB 1 epcT 100).1
            1 epcT 100).2).length
      ∧ ((generate_for_tenancy gasDB 1 epcT 100).2).map (fun e => e.due_date)
        = ((generate_for_tenancy (generate_for_tenancy gasDB 1 epcT 100).1
            1 epcT 100).2).map (fun e => e.due_date)
      ∧ ((generate_for_tenancy (generate_for_tenancy gasDB 1 epcT 100).1
            1 epcT 100).1).events.filter
            (fun e => e.tenancy_id == some 1 && e.user_id == 1)
        = (generate_for_tenancy (generate_for_tenancy gasDB 1 epcT 100).1
            1 epcT 100).2 :=
  generate_idempotent gasDB 1 epcT 100 1 rfl (by decide)

/-- C9.  `get_upcoming_events` returns exactly the non-completed stored
events (as the query scopes them) whose due date is non-null and at most
today + days — each carried through the lazy overdue flip — sorted by due
date ascending and, on equal due dates, by priority rank ascending with
critical(0) < high(1) < medium(2) < low(3). -/
theorem upcoming_events_exact_sorted (db : DB) (u : Nat) (days : Int)
    (today : Day) (pf tf : Option Nat) :
    ((get_upcoming_events db u days today pf tf).2).Perm
        (((db.list_events u pf tf none).filter (in_window (today + days))).map
          (lazy_flip today))
    ∧ ((get_upcoming_events db u days today pf tf).2).Pairwise
        (fun a b => ∀ x y, a.due_date = some x → b.due_date = some y →
          x < y ∨ (x = y
            ∧ priority_order a.priority ≤ priority_order b.priority)) := by
  have h := upcoming_fold_list u today (today + days)
    (db.list_events u pf tf none) db []
  constructor
  · unfold get_upcoming_events
    dsimp only
    refine (List.mergeSort_perm _ _).trans ?_
    rw [h]
    simp
  · unfold get_upcoming_events
    dsimp only
    have hP := List.sorted_mergeSort eventLe_trans eventLe_total
      ((db.list_events u pf tf none).foldl
        (upcoming_step u today (today + days)) (db, [])).2
    refine hP.imp ?_
    intro a b hle x y hx hy
    simpa [eventLe, hx, hy] using hle

/-- C5.  After `get_upcoming_events` or `get_overdue_events` returns (over a
store whose event ids are unique, as the primary key guarantees): every
returned event past due carries status overdue with that status persisted on
its row in the resulting store; completed events are excluded from both
results; and no completed row is ever transitioned. -/
theorem lazy_overdue_transition (db : DB) (u : Nat) (days : Int)
    (today : Day) (pf tf : Option Nat)
    (hnd : (db.events.map (fun e => e.id)).Nodup) :
    ReadResultOk u today (get_upcoming_events db u days today pf tf).1
        (get_upcoming_events db u days today pf tf).2
      ∧ List.Forall₂ (fun s0 s => s0.status = EventStatus.completed → s = s0)
        db.events (get_upcoming_events db u days today pf tf).1.events
      ∧ ReadResultOk u today (get_overdue_events db u today pf tf).1
          (get_overdue_events db u today pf tf).2
      ∧ List.Forall₂ (fun s0 s => s0.status = EventStatus.completed → s = s0)
        db.events (get_overdue_events db u today pf tf).1.events := by
  have hbase : List.Forall₂ Evolves db.events db.events :=
    List.forall₂_same.mpr (fun x _ => Or.inl rfl)
  have hmem : ∀ e ∈ db.list_events u pf tf none, e ∈ db.events :=
    fun e he => (List.mem_filter.mp he).1
  have hempty : ReadResultOk u today db [] := by
    intro x hx
    exact absurd hx (List.not_mem_nil x)
  have hup := lazy_fold_ok u today db hnd _
    (upcoming_step_lazy u today (today + days))
    (db.list_events u pf tf none) hmem db [] hbase hempty
  have hov := lazy_fold_ok u today db hnd _ (overdue_step_lazy u today)
    (db.list_events u pf tf none) hmem db [] hbase hempty
  have himp : ∀ (s0 s : ComplianceEvent), Evolves s0 s →
      (s0.status = EventStatus.completed → s = s0) := by
    intro s0 s hev hcomp
    rcases hev with rfl | ⟨hnc, rfl⟩
    · rfl
    · exact absurd hcomp hnc
  refine ⟨?_, ?_, ?_, ?_⟩
  · intro x hx
    unfold get_upcoming_events at hx ⊢
    rw [List.mem_mergeSort] at hx
    exact hup.2 x hx
  · unfold get_upcoming_events
    exact hup.1.imp himp
  · exact hov.2
  · exact hov.1.imp himp

/-- Witness for C5: over `pastDueDB` on day 100 both reads return the event
flipped to overdue and persist the flip; the unique-id hypothesis holds. -/
theorem lazy_overdue_transition_witness :
    (pastDueDB.events.map (fun e => e.id)).Nodup
      ∧ (ReadResultOk 1 100 (get_upcoming_events pastDueDB 1 30 100 none none).1
            (get_upcoming_events pastDueDB 1 30 100 none none).2
        ∧ List.Forall₂
            (fun s0 s => s0.status = EventStatus.completed → s = s0)
            pastDueDB.events
            (get_upcoming_events pastDueDB 1 30 100 none none).1.events
        ∧ ReadResultOk 1 100 (get_overdue_events pastDueDB 1 100 none none).1
            (get_overdue_events pastDueDB 1 100 none none).2
        ∧ List.Forall₂
            (fun s0 s => s0.status = EventStatus.completed → s = s0)
            pastDueDB.events
            (get_overdue_events pastDueDB 1 100 none none).1.events) :=
  ⟨by decide,
    lazy_overdue_transition pastDueDB 1 30 100 none none (by decide)⟩

/-- C1 counterexample.  `gasDB` holds one certificate expiring 10 days after
day 100 and an empty marker ledger (so in particular no marker for threshold
14): `get_expiring_items` emits exactly one item for it, but labeled
"3 months", not "2 weeks" — the first threshold of the order 90, 60, 28, 21,
14, 7 satisfying `0 < days_until <= threshold` for `days_until = 10` is 90,
so the item is attributed to the 90-day threshold. -/
theorem expiring_ten_days_counterexample :
    (get_expiring_items gasDB 100 (some 1)).map
        (fun i => (i.item_id, i.reminder_label)) = [(1, "3 months")]
      ∧ "3 months" ≠ "2 weeks" := by
  constructor
  · rfl
  · decide

/-- C1 (amended).  For every certificate that is the latest of its type on a
property of the owner and expires 10 days after today, with no
ReminderSentMarker for threshold 90 (the threshold the fixed-order check
attributes `days_until = 10` to — not 14), `get_expiring_items` emits
exactly one ExpiryItem for it, and that item carries the reminder label
"3 months" (not "2 weeks").  Store ids are assumed unique per table (the
primary-key invariant). -/
theorem expiring_certificate_ten_days (db : DB) (u : Nat) (today : Day)
    (p : Property) (ct : CertificateType) (c : Certificate)
    (hndP : (db.properties.map (fun x => x.id)).Nodup)
    (hndC : (db.certificates.map (fun x => x.id)).Nodup)
    (hp : p ∈ db.properties) (hpu : p.user_id = u)
    (hc : db.get_latest_certificate p.id ct u = some c)
    (he : c.expiry_date = some (today + 10))
    (hm : reminder_already_sent db "certificate" c.id 90 u = false) :
    (get_expiring_items db today (some u)).filter
        (fun i => i.item_type == "certificate" && i.item_id == c.id)
      = [⟨"certificate", c.id, cert_name ct,
          p.address ++ ", " ++ p.postcode, today + 10, 10, "3 months"⟩] := by
  have hcf := get_latest_certificate_fields hc
  have hmain := certItems_filter_self hndP hndC hp hpu hc he hm
  have hother : ∀ ct', ct' ≠ ct →
      (get_expiring_certificates db ct' today (some u)).filter
        (fun i => i.item_type == "certificate" && i.item_id == c.id) = [] :=
    fun ct' h => certItems_filter_other hndC hcf.1 hcf.2.2.1 h
  unfold get_expiring_items
  rw [List.filter_append, eventItems_filter_cert, List.append_nil,
    List.filter_flatMap]
  cases ct <;>
    simp only [CertificateType.all, List.flatMap_cons, List.flatMap_nil,
      List.append_nil] <;>
    rw [hmain] <;>
    (try rw [hother .gas_safety (by decide)]) <;>
    (try rw [hother .eicr (by decide)]) <;>
    (try rw [hother .epc (by decide)]) <;>
    (try rw [hother .fire_safety (by decide)]) <;>
    simp

/-- Witness for the amended C1 at `gasDB`, day 100: its gas safety
certificate (id 1) expires on day 110 and the ledger is empty. -/
theorem expiring_certificate_ten_days_witness :
    (get_expiring_items gasDB 100 (some 1)).filter
        (fun i => i.item_type == "certificate" && i.item_id == 1)
      = [⟨"certificate", 1, cert_name .gas_safety,
          "1 High St" ++ ", " ++ "AB1 2CD", (100 : Day) + 10, 10,
          "3 months"⟩] :=
  expiring_certificate_ten_days gasDB 1 100 ⟨1, 1, "1 High St", "AB1 2CD"⟩
    .gas_safety ⟨1, 1, 1, .gas_safety, some 0, some 110⟩ (by decide)
    (by decide) (by decide) rfl (by decide) (by decide) (by decide)

/-- C6.  After a `send_reminders` call whose mail transport succeeds, every
item that was included has a ReminderSentMarker for (owner, item type, item
id, matched threshold days) in the resulting store, and an immediately
subsequent `get_expiring_items` for that owner emits no item with the same
(item type, item id) — each (item, threshold) pair reminds at most once.
Store ids are assumed unique per table (the primary-key invariant). -/
theorem send_reminders_marks_each_item_once (db : DB) (u : Nat) (today : Day)
    (hndC : (db.certificates.map (fun x => x.id)).Nodup)
    (hndE : (db.events.map (fun x => x.id)).Nodup) :
    ∀ it ∈ get_expiring_items db today (some u),
      (∃ ld, matched_threshold it.days_until_expiry = some ld
        ∧ reminder_already_sent (send_reminders db u today true).1
            it.item_type it.item_id ld.2 u = true)
      ∧ ∀ it2 ∈ get_expiring_items (send_reminders db u today true).1 today
            (some u),
          it2.item_type = it.item_type → it2.item_id = it.item_id → False := by
  intro it hit
  have hne : (get_expiring_items db today (some u)).isEmpty = false := by
    cases h : get_expiring_items db today (some u) with
    | nil => rw [h] at hit; simp at hit
    | cons a l => rfl
  have hdb' : (send_reminders db u today true).1
      = mark_items_sent db u (get_expiring_items db today (some u)) := by
    simp [send_reminders, hne]
  obtain ⟨s, hs⟩ := mark_items_sent_shape u
    (get_expiring_items db today (some u)) db
  have hcerts : (send_reminders db u today true).1.certificates
      = db.certificates := by rw [hdb', hs]
  have hevents : (send_reminders db u today true).1.events = db.events := by
    rw [hdb', hs]
  rcases mem_get_expiring_items.mp hit with ⟨ct, hcert⟩ | hev
  · obtain ⟨p, hp, c, hl, exp, he, hemit⟩ :=
      mem_get_expiring_certificates.mp hcert
    obtain ⟨ld, hld, hsent, hiteq⟩ := mem_threshold_emission.mp hemit
    subst hiteq
    constructor
    · refine ⟨ld, hld, ?_⟩
      rw [hdb']
      apply already_sent_of_mem
      exact mark_items_sent_marks _ db _ hit ld (matched_label_lookup hld)
    · intro it2 hit2 hty hid
      rcases mem_get_expiring_items.mp hit2 with ⟨ct2, hcert2⟩ | hev2
      · obtain ⟨p2, hp2, c2, hl2, exp2, he2, hemit2⟩ :=
          mem_get_expiring_certificates.mp hcert2
        obtain ⟨ld2, hld2, hsent2, hiteq2⟩ := mem_threshold_emission.mp hemit2
        subst hiteq2
        simp only at hty hid
        have hl2' : db.get_latest_certificate p2.id ct2 u = some c2 := by
          unfold DB.get_latest_certificate at hl2 ⊢
          rw [hcerts] at hl2
          exact hl2
        have hfl2 := get_latest_certificate_fields hl2'
        have hfl := get_latest_certificate_fields hl
        have hcc : c2 = c := List.inj_on_of_nodup_map hndC hfl2.1 hfl.1 hid
        rw [hcc, he] at he2
        injection he2 with hexp
        subst hexp
        rw [hld] at hld2
        injection hld2 with hld2'
        subst hld2'
        rw [hcc] at hsent2
        have hmark : (⟨u, "certificate", c.id, ld.2⟩ : SentReminder)
            ∈ (send_reminders db u today true).1.sent_reminders := by
          rw [hdb']
          exact mark_items_sent_marks _ db _ hit ld (matched_label_lookup hld)
        rw [already_sent_of_mem hmark] at hsent2
        exact absurd hsent2 (by decide)
      · have hty2 := event_item_type hev2
        rw [hty2] at hty
        exact absurd hty (by simp)
  · obtain ⟨p, hp, e, heL, d, hd, hst, hemit⟩ := mem_get_expiring_events.mp hev
    obtain ⟨ld, hld, hsent, hiteq⟩ := mem_threshold_emission.mp hemit
    subst hiteq
    constructor
    · refine ⟨ld, hld, ?_⟩
      rw [hdb']
      apply already_sent_of_mem
      exact mark_items_sent_marks _ db _ hit ld (matched_label_lookup hld)
    · intro it2 hit2 hty hid
      rcases mem_get_expiring_items.mp hit2 with ⟨ct2, hcert2⟩ | hev2
      · have hty2 := cert_item_type hcert2
        rw [hty2] at hty
        exact absurd hty (by simp)
      · obtain ⟨p2, hp2, e2, he2L, d2, hd2, hst2, hemit2⟩ :=
          mem_get_expiring_events.mp hev2
        obtain ⟨ld2, hld2, hsent2, hiteq2⟩ := mem_threshold_emission.mp hemit2
        subst hiteq2
        simp only at hty hid
        have he2L' : e2 ∈ db.events := by
          unfold DB.list_events at he2L
          rw [hevents] at he2L
          exact (List.mem_filter.mp he2L).1
        have heL' : e ∈ db.events := (List.mem_filter.mp heL).1
        have hee : e2 = e := List.inj_on_of_nodup_map hndE he2L' heL' hid
        rw [hee, hd] at hd2
        injection hd2 with hdd
        subst hdd
        rw [hld] at hld2
        injection hld2 with hld2'
        subst hld2'
        rw [hee] at hsent2
        have hmark : (⟨u, "event", e.id, ld.2⟩ : SentReminder)
            ∈ (send_reminders db u today true).1.sent_reminders := by
          rw [hdb']
          exact mark_items_sent_marks _ db _ hit ld (matched_label_lookup hld)
        rw [already_sent_of_mem hmark] at hsent2
        exact absurd hsent2 (by decide)

/-- Witness for C6 at `gasDB`, day 100: the one expiring certificate item is
marked at its matched threshold and no longer emitted afterwards. -/
theorem send_reminders_marks_each_item_once_witness :
    (gasDB.certificates.map (fun x => x.id)).Nodup
      ∧ ∀ it ∈ get_expiring_items gasDB 100 (some 1),
        (∃ ld, matched_threshold it.days_until_expiry = some ld
          ∧ reminder_already_sent (send_reminders gasDB 1 100 true).1
              it.item_type it.item_id ld.2 1 = true)
        ∧ ∀ it2 ∈ get_expiring_items (send_reminders gasDB 1 100 true).1 100
              (some 1),
            it2.item_type = it.item_type → it2.item_id = it.item_id → False :=
  ⟨by decide,
    send_reminders_marks_each_item_once gasDB 1 100 (by decide) (by decide)⟩

end LCC
